import Mathlib

set_option maxRecDepth 10000

/-!
Shallow embedding of the battle engine in `src/src/tools/battle_simulation.py`
(repository `pokemon-mcp`).  Python floats are modelled as exact rationals
(the claims checked here do not depend on floating-point rounding), machine
integers as `Nat`/`Int`, Python dictionaries keyed by strings as association
lists, and every call to the `random` module as a draw from an explicit
oracle threaded through the computation.  The external type-effectiveness
lookup (an `await`ed database call) is a function parameter.
-/

namespace PokemonMCP

/-- The six status-effect tags of class `StatusEffect` (Python string constants). -/
def burn : String := "burn"

def poison : String := "poison"

def paralysis : String := "paralysis"

def sleep : String := "sleep"

def freeze : String := "freeze"

def confusion : String := "confusion"

/-- The list `major_statuses` built inside `apply_status_effect`
(also the list the mutual-exclusion branch tests membership in). -/
def major_statuses : List String := [burn, poison, paralysis, sleep, freeze]

/-- A battle move as prepared by `prepare_pokemon_for_battle`:
keys `name`, `type`, `power`, `accuracy`, `damage_class` of the move dict. -/
structure Move where
  name : String
  type : String
  power : ℕ
  accuracy : ℕ
  damage_class : String
  deriving DecidableEq

/-- The `Pokemon` dataclass.  `hp` is the current-HP slot (an `int` in
Python, possibly decremented during a battle, so modelled as `ℤ`);
`status_turns` is the per-condition remaining-duration dictionary. -/
structure Pokemon where
  name : String
  hp : ℤ
  max_hp : ℕ
  attack : ℕ
  defense : ℕ
  special_attack : ℕ
  special_defense : ℕ
  speed : ℕ
  types : List String
  moves : List Move
  status_effects : List String
  status_turns : List (String × ℕ)
  deriving DecidableEq

/-- One entry of the `turns` list: dict with keys `turn` and `actions`. -/
structure TurnRec where
  turn : ℕ
  actions : List String
  deriving DecidableEq

/-- The `BattleResult` dataclass. -/
structure BattleResult where
  winner : Option String
  turns : List TurnRec
  battle_summary : String
  deriving DecidableEq

/-- Oracle for the `random` module: separate streams for `random.random()`,
`random.uniform(0.85, 1.0)`, `random.randint(lo, hi)` and `random.choice`. -/
structure Rng where
  rand : ℕ → ℚ
  unif : ℕ → ℚ
  intv : ℕ → ℕ
  pick : ℕ → ℕ

/-- Position counters into each oracle stream. -/
structure RngState where
  rng : Rng
  nr : ℕ
  nu : ℕ
  ni : ℕ
  nc : ℕ

/-- Draw the next `random.random()` value. -/
def nextRand (s : RngState) : ℚ × RngState :=
  (s.rng.rand s.nr, { s with nr := s.nr + 1 })

/-- Draw the next `random.uniform(0.85, 1.0)` value. -/
def nextUnif (s : RngState) : ℚ × RngState :=
  (s.rng.unif s.nu, { s with nu := s.nu + 1 })

/-- Draw the next `random.randint` raw value (mapped into range by callers). -/
def nextInt (s : RngState) : ℕ × RngState :=
  (s.rng.intv s.ni, { s with ni := s.ni + 1 })

/-- Draw the next `random.choice` raw index (reduced mod the list length). -/
def nextPick (s : RngState) : ℕ × RngState :=
  (s.rng.pick s.nc, { s with nc := s.nc + 1 })

/-- Python `d.get(k, default)` on a string-keyed dict (first matching key). -/
def dget (d : List (String × ℕ)) (k : String) (default : ℕ) : ℕ :=
  match d with
  | [] => default
  | kv :: rest => if kv.1 = k then kv.2 else dget rest k default

/-- Python `d[k] = v` on a string-keyed dict. -/
def dset (d : List (String × ℕ)) (k : String) (v : ℕ) : List (String × ℕ) :=
  if d.any (fun kv => kv.1 = k) then
    d.map (fun kv => if kv.1 = k then (k, v) else kv)
  else
    d ++ [(k, v)]

/-- Python `d.pop(k, None)` on a string-keyed dict (drops the key). -/
def dpop (d : List (String × ℕ)) (k : String) : List (String × ℕ) :=
  d.filter (fun kv => kv.1 ≠ k)

/-- The loop inside `apply_status_effect` that removes every major status
already present, erasing it from `status_effects` and popping its
`status_turns` entry.  First component: effects list, second: turns dict. -/
def removeMajorsAux (ms : List String) (e : List String) (t : List (String × ℕ)) :
    List String × List (String × ℕ) :=
  ms.foldl
    (fun p m => if m ∈ p.1 then (p.1.erase m, dpop p.2 m) else p)
    (e, t)

/-- Result of `StatusEffectManager.apply_status_effect`: the mutated Pokemon,
the returned message, and the advanced random state. -/
structure ApplyResult where
  pokemon : Pokemon
  msg : String
  rs : RngState

/-- `StatusEffectManager.apply_status_effect`.  A status already present is a
no-op; a major status first removes every other major status; `sleep` and
`confusion` draw a random duration (`randint(1,3)` resp. `randint(2,5)`). -/
def apply_status_effect (p : Pokemon) (status : String) (rs : RngState) : ApplyResult :=
  if status ∈ p.status_effects then
    ⟨p, p.name ++ " is already " ++ status ++ "!", rs⟩
  else
    let et :=
      if status ∈ major_statuses then
        removeMajorsAux major_statuses p.status_effects p.status_turns
      else (p.status_effects, p.status_turns)
    let e := et.1 ++ [status]
    let tr :=
      if status = sleep then
        let nr := nextInt rs
        (dset et.2 sleep (1 + nr.1 % 3), nr.2)
      else if status = confusion then
        let nr := nextInt rs
        (dset et.2 confusion (2 + nr.1 % 4), nr.2)
      else (et.2, rs)
    ⟨{ p with status_effects := e, status_turns := tr.1 },
      p.name ++ " is now " ++ status ++ "!", tr.2⟩

/-- The body of the `for status in pokemon.status_effects.copy()` loop of
`process_status_damage`: accumulate damage and messages for one status. -/
def status_damage_step (p : Pokemon) (acc : ℕ × List String) (status : String) :
    ℕ × List String :=
  if status = burn then
    let bd := max 1 (p.max_hp / 16)
    (acc.1 + bd, acc.2 ++ [p.name ++ " is hurt by its burn! (-" ++ toString bd ++ " HP)"])
  else if status = poison then
    let pd := max 1 (p.max_hp / 8)
    (acc.1 + pd, acc.2 ++ [p.name ++ " is hurt by poison! (-" ++ toString pd ++ " HP)"])
  else acc

/-- `StatusEffectManager.process_status_damage`: end-of-turn burn and poison
damage, summed over the status list, with the joined message. -/
def process_status_damage (p : Pokemon) : ℕ × String :=
  let r := p.status_effects.foldl (status_damage_step p) (0, [])
  (r.1, String.intercalate "; " r.2)

/-- Result of `StatusEffectManager.can_move`. -/
structure MoveCheck where
  can : Bool
  msg : String
  pokemon : Pokemon
  rs : RngState

/-- The `for status in pokemon.status_effects.copy()` loop of `can_move`:
iterates over a snapshot of the status list while mutating the Pokemon,
with early returns for blocking conditions. -/
def can_move_go : List String → List String → Pokemon → RngState → MoveCheck
  | [], msgs, p, rs => ⟨true, String.intercalate "; " msgs, p, rs⟩
  | status :: rest, msgs, p, rs =>
    if status = paralysis then
      let d := nextRand rs
      if d.1 < 1/4 then
        ⟨false, p.name ++ " is paralyzed and can\x27t move!", p, d.2⟩
      else can_move_go rest msgs p d.2
    else if status = sleep then
      let turns_left := dget p.status_turns sleep 0
      if turns_left > 0 then
        let p' := { p with status_turns := dset p.status_turns sleep (turns_left - 1) }
        if turns_left - 1 ≤ 0 then
          let p'' := { p' with
            status_effects := p'.status_effects.erase sleep,
            status_turns := dpop p'.status_turns sleep }
          ⟨true, p.name ++ " woke up!", p'', rs⟩
        else
          ⟨false, p.name ++ " is fast asleep!", p', rs⟩
      else can_move_go rest msgs p rs
    else if status = freeze then
      let d := nextRand rs
      if d.1 < 1/5 then
        let p' := { p with status_effects := p.status_effects.erase freeze }
        ⟨true, p.name ++ " thawed out!", p', d.2⟩
      else
        ⟨false, p.name ++ " is frozen solid!", p, d.2⟩
    else if status = confusion then
      let turns_left := dget p.status_turns confusion 0
      if turns_left > 0 then
        let p' := { p with status_turns := dset p.status_turns confusion (turns_left - 1) }
        if turns_left - 1 ≤ 0 then
          let p'' := { p' with
            status_effects := p'.status_effects.erase confusion,
            status_turns := dpop p'.status_turns confusion }
          can_move_go rest (msgs ++ [p.name ++ " snapped out of confusion!"]) p'' rs
        else
          let d := nextRand rs
          if d.1 < 1/2 then
            ⟨false, p.name ++ " is confused and hurt itself!", p', d.2⟩
          else can_move_go rest msgs p' d.2
      else can_move_go rest msgs p rs
    else can_move_go rest msgs p rs

/-- `StatusEffectManager.can_move`. -/
def can_move (p : Pokemon) (rs : RngState) : MoveCheck :=
  can_move_go p.status_effects [] p rs

/-- `StatusEffectManager.modify_damage`: burn halves physical damage. -/
def modify_damage (p : Pokemon) (damage : ℤ) (is_physical : Bool) : ℤ :=
  if burn ∈ p.status_effects ∧ is_physical = true then Int.fdiv damage 2
  else damage

/-- Python `int(x)` on a float/rational: truncation toward zero. -/
def pytrunc (q : ℚ) : ℤ :=
  if q < 0 then -(Int.floor (-q)) else Int.floor q

/-- The type of the external `get_type_effectiveness` database lookup. -/
def Eff : Type := String → List String → ℚ

/-- `BattleSimulator._get_move_status_chance`: the `move_status_map` table,
defaulting to `(None, 0.0)` after lowercasing the move name. -/
def get_move_status_chance (move_name : String) : Option String × ℚ :=
  let n := move_name.toLower
  if n = "flamethrower" then (some burn, 1/10)
  else if n = "fire-blast" then (some burn, 1/10)
  else if n = "ember" then (some burn, 1/10)
  else if n = "fire-punch" then (some burn, 1/10)
  else if n = "thunderbolt" then (some paralysis, 1/10)
  else if n = "thunder-shock" then (some paralysis, 1/10)
  else if n = "thunder" then (some paralysis, 3/10)
  else if n = "nuzzle" then (some paralysis, 1)
  else if n = "poison-sting" then (some poison, 3/10)
  else if n = "toxic" then (some poison, 9/10)
  else if n = "poison-jab" then (some poison, 3/10)
  else if n = "sludge-bomb" then (some poison, 3/10)
  else if n = "sleep-powder" then (some sleep, 3/4)
  else if n = "spore" then (some sleep, 1)
  else if n = "hypnosis" then (some sleep, 3/5)
  else if n = "ice-beam" then (some freeze, 1/10)
  else if n = "blizzard" then (some freeze, 1/10)
  else if n = "confusion" then (some confusion, 1/10)
  else if n = "psybeam" then (some confusion, 1/10)
  else (none, 0)

/-- Result of `BattleSimulator._calculate_damage`: the damage, critical flag,
inflicted status, the (possibly mutated) defender, and the random state. -/
structure DamageResult where
  damage : ℤ
  is_critical : Bool
  status_inflicted : Option String
  defender : Pokemon
  rs : RngState

/-- `BattleSimulator._calculate_damage`.  Zero-power moves return 0 damage;
otherwise the level-50 base formula, type effectiveness, a 1/16 critical
roll (×1.5), a uniform factor, the same-type 1.5 bonus, the burn physical
halving, and a floor of 1; independently, the move-status table may inflict
a status on the defender. -/
def calculate_damage (eff : Eff) (attacker defender : Pokemon) (move : Move)
    (rs : RngState) : DamageResult :=
  if move.power = 0 then ⟨0, false, none, defender, rs⟩
  else
    let effectiveness := eff move.type defender.types
    let is_physical := move.damage_class = "physical"
    let attack_stat : ℚ := if is_physical then attacker.attack else attacker.special_attack
    let defense_stat : ℚ := if is_physical then defender.defense else defender.special_defense
    let level : ℚ := 50
    let base0 : ℚ := ((2 * level / 5 + 2) * move.power * attack_stat / defense_stat) / 50 + 2
    let base1 := base0 * effectiveness
    let dcrit := nextRand rs
    let is_critical := dcrit.1 < 1/16
    let base2 := if is_critical then base1 * (3/2) else base1
    let dfac := nextUnif dcrit.2
    let damage0 := base2 * dfac.1
    let damage1 := if move.type ∈ attacker.types then damage0 * (3/2) else damage0
    let damage2 := modify_damage attacker (pytrunc damage1) is_physical
    let final_damage := max 1 damage2
    let sc := get_move_status_chance move.name
    match sc.1 with
    | none => ⟨final_damage, is_critical, none, defender, dfac.2⟩
    | some se =>
      let droll := nextRand dfac.2
      if droll.1 < sc.2 then
        let ar := apply_status_effect defender se droll.2
        ⟨final_damage, is_critical, some se, ar.pokemon, ar.rs⟩
      else
        ⟨final_damage, is_critical, none, defender, droll.2⟩

/-- The turn-order computation at the top of each round of `simulate_battle`:
speeds halved under paralysis, and `pokemon1` goes first exactly when
`speed1 >= speed2`.  `true` means the first-listed combatant acts first. -/
def turn_order (p1 p2 : Pokemon) : Bool :=
  let speed1 := if paralysis ∈ p1.status_effects then p1.speed / 2 else p1.speed
  let speed2 := if paralysis ∈ p2.status_effects then p2.speed / 2 else p2.speed
  decide (speed2 ≤ speed1)

/-- Mid-round state of `simulate_battle`: the two (mutable) Pokemon, the two
current-HP locals, the `actions` list of the turn under construction, and
the random state. -/
structure RoundSt where
  p1 : Pokemon
  p2 : Pokemon
  hp1 : ℤ
  hp2 : ℤ
  actions : List String
  rs : RngState

/-- Write the acting Pokemon back into its slot. -/
def setActor (actorIsP1 : Bool) (p : Pokemon) (st : RoundSt) : RoundSt :=
  if actorIsP1 then { st with p1 := p } else { st with p2 := p }

/-- Write the defending Pokemon back into its slot (the slot opposite the actor). -/
def setDefender (actorIsP1 : Bool) (p : Pokemon) (st : RoundSt) : RoundSt :=
  if actorIsP1 then { st with p2 := p } else { st with p1 := p }

/-- Fallback move for the (unreachable) out-of-range index of `random.choice`. -/
def defaultMove : Move := ⟨"", "", 0, 0, ""⟩

/-- The attack part shared by both actor blocks of the round loop: move
filtering, selection, damage resolution and application, and the action
message.  `extraPick` mirrors the duplicated `random.choice` line in the
first block (it consumes one extra draw there). -/
def attack_action (eff : Eff) (actorIsP1 extraPick : Bool) (actor : Pokemon)
    (st : RoundSt) : RoundSt :=
  if actor.moves = [] then
    { st with actions := st.actions ++ [actor.name ++ " has no moves and cannot attack!"] }
  else
    let attacking_moves := actor.moves.filter (fun m => 0 < m.power)
    if attacking_moves = [] then
      { st with actions :=
          st.actions ++ [actor.name ++ " has no attacking moves and struggles helplessly!"] }
    else
      let rs0 := if extraPick then (nextPick st.rs).2 else st.rs
      let dpick := nextPick rs0
      let move := attacking_moves.getD (dpick.1 % attacking_moves.length) defaultMove
      let defender := if actorIsP1 then st.p2 else st.p1
      let dr := calculate_damage eff actor defender move dpick.2
      let st := setDefender actorIsP1 dr.defender st
      let st :=
        if actorIsP1 then { st with hp2 := max 0 (st.hp2 - dr.damage) }
        else { st with hp1 := max 0 (st.hp1 - dr.damage) }
      let target_name := dr.defender.name
      let action := actor.name ++ " used " ++ move.name ++ " and dealt " ++
        toString dr.damage ++ " damage to " ++ target_name
      let action := if dr.is_critical then action ++ " (Critical hit!)" else action
      let action :=
        match dr.status_inflicted with
        | some s => action ++ " " ++ target_name ++ " is now " ++ s ++ "!"
        | none => action
      { st with rs := dr.rs, actions := st.actions ++ [action] }

/-- The first actor block of a round: status gating, then the attack. -/
def first_turn (eff : Eff) (firstIsP1 : Bool) (st : RoundSt) : RoundSt :=
  let first := if firstIsP1 then st.p1 else st.p2
  let c := can_move first st.rs
  let st := setActor firstIsP1 c.pokemon st
  let st := { st with rs := c.rs
                      actions := st.actions ++ (if c.msg = "" then [] else [c.msg]) }
  if c.can then attack_action eff firstIsP1 true c.pokemon st else st

/-- The second actor block of a round: status gating, then the attack, the
latter additionally guarded by both HP values being positive. -/
def second_turn (eff : Eff) (firstIsP1 : Bool) (st : RoundSt) : RoundSt :=
  let secondIsP1 := !firstIsP1
  let second := if secondIsP1 then st.p1 else st.p2
  let c := can_move second st.rs
  let st := setActor secondIsP1 c.pokemon st
  let st := { st with rs := c.rs
                      actions := st.actions ++ (if c.msg = "" then [] else [c.msg]) }
  if c.can ∧ 0 < st.hp1 ∧ 0 < st.hp2 then
    attack_action eff secondIsP1 false c.pokemon st
  else st

/-- The end-of-round status-damage block: each still-standing Pokemon takes
its burn/poison damage, clamped at 0, with the message appended only when
the damage is positive. -/
def status_phase (st : RoundSt) : RoundSt :=
  let st :=
    if 0 < st.hp1 then
      let dm := process_status_damage st.p1
      if 0 < dm.1 then
        { st with hp1 := max 0 (st.hp1 - dm.1), actions := st.actions ++ [dm.2] }
      else st
    else st
  if 0 < st.hp2 then
    let dm := process_status_damage st.p2
    if 0 < dm.1 then
      { st with hp2 := max 0 (st.hp2 - dm.1), actions := st.actions ++ [dm.2] }
    else st
  else st

/-- One round of the battle loop.  After the first actor the code breaks out
early when either HP is exhausted (the loop condition would stop it anyway,
but the second actor and the status phase are skipped). -/
def battle_round (eff : Eff) (st : RoundSt) : RoundSt :=
  let firstIsP1 := turn_order st.p1 st.p2
  let st := first_turn eff firstIsP1 st
  if st.hp1 ≤ 0 ∨ st.hp2 ≤ 0 then st
  else status_phase (second_turn eff firstIsP1 st)

/-- Whole-battle state: Pokemon, HP locals, the accumulated `turns` list and
the random state. -/
structure BattleSt where
  p1 : Pokemon
  p2 : Pokemon
  hp1 : ℤ
  hp2 : ℤ
  turns : List TurnRec
  rs : RngState

/-- The `while current_hp1 > 0 and current_hp2 > 0 and turn_count < max_turns`
loop, with fuel `= max_turns - turn_count`; each executed round appends
exactly one `TurnRec`. -/
def battle_loop (eff : Eff) : ℕ → ℕ → BattleSt → BattleSt
  | 0, _, st => st
  | fuel + 1, turn_count, st =>
    if 0 < st.hp1 ∧ 0 < st.hp2 then
      let r := battle_round eff ⟨st.p1, st.p2, st.hp1, st.hp2, [], st.rs⟩
      battle_loop eff fuel (turn_count + 1)
        ⟨r.p1, r.p2, r.hp1, r.hp2, st.turns ++ [⟨turn_count + 1, r.actions⟩], r.rs⟩
    else st

/-- Initial loop state of `simulate_battle`. -/
def init_battle_state (p1 p2 : Pokemon) (rs : RngState) : BattleSt :=
  ⟨p1, p2, p1.hp, p2.hp, [], rs⟩

/-- `BattleSimulator.simulate_battle`: run up to 100 rounds, then pick the
winner (`pokemon1` if its HP is positive, else `pokemon2` if its HP is
positive, else a draw) and build the summary line. -/
def simulate_battle (eff : Eff) (p1 p2 : Pokemon) (rs : RngState) : BattleResult :=
  let st := battle_loop eff 100 0 (init_battle_state p1 p2 rs)
  let winner : Option String :=
    if 0 < st.hp1 then some p1.name
    else if 0 < st.hp2 then some p2.name
    else none
  let battle_summary :=
    match winner with
    | some w => w ++ " won in " ++ toString st.turns.length ++ " turns"
    | none => "Battle ended in a draw"
  ⟨winner, st.turns, battle_summary⟩

/-- A raw move record as supplied to `prepare_pokemon_for_battle`
(`move['move']` in the input dict); `power` and `accuracy` may be absent. -/
structure RawMove where
  name : String
  type : String
  power : Option ℕ
  accuracy : Option ℕ
  damage_class : String
  deriving DecidableEq

/-- Raw base stats (`data['stats']`), each possibly absent. -/
structure RawStats where
  hp : Option ℕ
  attack : Option ℕ
  defense : Option ℕ
  special_attack : Option ℕ
  special_defense : Option ℕ
  speed : Option ℕ
  deriving DecidableEq

/-- Raw input record of `prepare_pokemon_for_battle`. -/
structure RawPokemon where
  identifier : String
  stats : RawStats
  types : List String
  moves : List RawMove
  deriving DecidableEq

/-- Python truthiness of an optional integer (`None` and `0` are falsy). -/
def truthy (o : Option ℕ) : Bool :=
  match o with
  | none => false
  | some n => n ≠ 0

/-- `x or d` on an optional integer. -/
def orDefault (o : Option ℕ) (d : ℕ) : ℕ :=
  match o with
  | none => d
  | some n => if n = 0 then d else n

/-- The nested `calculate_hp` helper: `int((base*2)*50/100 + 50 + 10)`. -/
def calculate_hp (base_hp : ℕ) : ℕ :=
  (pytrunc ((base_hp * 2 : ℚ) * 50 / 100 + 50 + 10)).toNat

/-- The nested `calculate_stat` helper: `int((base*2)*50/100 + 5)`. -/
def calculate_stat (base_stat : ℕ) : ℕ :=
  (pytrunc ((base_stat * 2 : ℚ) * 50 / 100 + 5)).toNat

/-- `prepare_pokemon_for_battle`: level-50 stat scaling (with defaults for
missing stats) and the move-list comprehension, which slices the supplied
list to its first four entries and then keeps only moves with truthy
power. -/
def prepare_pokemon_for_battle (data : RawPokemon) : Pokemon :=
  let scaled_hp := calculate_hp (data.stats.hp.getD 35)
  { name := data.identifier
    hp := scaled_hp
    max_hp := scaled_hp
    attack := calculate_stat (data.stats.attack.getD 50)
    defense := calculate_stat (data.stats.defense.getD 50)
    special_attack := calculate_stat (data.stats.special_attack.getD 50)
    special_defense := calculate_stat (data.stats.special_defense.getD 50)
    speed := calculate_stat (data.stats.speed.getD 50)
    types := data.types
    moves :=
      ((data.moves.take 4).filter (fun m => truthy m.power)).map
        (fun m =>
          { name := m.name
            type := m.type
            power := orDefault m.power 0
            accuracy := orDefault m.accuracy 100
            damage_class := m.damage_class })
    status_effects := []
    status_turns := [] }

/-- At most one major condition (and no duplicated conditions): the status
invariant of the spec, stated on a status list. -/
def listInv (l : List String) : Prop :=
  l.Nodup ∧ ∀ x ∈ l, ∀ y ∈ l, x ∈ major_statuses → y ∈ major_statuses → x = y

/-- The status invariant on a combatant. -/
def statusInv (p : Pokemon) : Prop :=
  listInv p.status_effects

instance (l : List String) : Decidable (listInv l) := by
  unfold listInv; infer_instance

instance (p : Pokemon) : Decidable (statusInv p) := by
  unfold statusInv; infer_instance

/-- Iterate `can_move` round after round (the per-round status gating of the
battle loop, isolated), recording the allowed flag and the message. -/
def can_move_trace (p : Pokemon) (rs : RngState) : ℕ → List (Bool × String)
  | 0 => []
  | n + 1 =>
    let c := can_move p rs
    (c.can, c.msg) :: can_move_trace c.pokemon c.rs n

/-- A type-effectiveness provider that always answers 0.0. -/
def effZero : Eff := fun _ _ => 0

/-- A type-effectiveness provider that always answers 1.0 (neutral). -/
def effOne : Eff := fun _ _ => 1

/-- A concrete all-zeros random oracle. -/
def rng0 : Rng := ⟨fun _ => 0, fun _ => 0, fun _ => 0, fun _ => 0⟩

/-- Initial random state over the all-zeros oracle. -/
def rs0 : RngState := ⟨rng0, 0, 0, 0, 0⟩

/-- A combatant with no moves and no status conditions. -/
def monA : Pokemon := ⟨"a", 1, 1, 1, 1, 1, 1, 1, [], [], [], []⟩

/-- A second combatant with no moves and no status conditions. -/
def monB : Pokemon := ⟨"b", 1, 1, 1, 1, 1, 1, 1, [], [], [], []⟩

/-- A combatant afflicted with sleep whose remaining-duration counter is 2. -/
def sleeper : Pokemon := ⟨"s", 10, 10, 5, 5, 5, 5, 5, [], [], [sleep], [(sleep, 2)]⟩

/-- A physical 40-power move. -/
def atkMove : Move := ⟨"tackle", "normal", 40, 100, "physical"⟩

/-- A plain combatant knowing `atkMove`. -/
def fighter : Pokemon := ⟨"f", 100, 100, 60, 60, 60, 60, 60, ["normal"], [atkMove], [], []⟩

/-- A combatant with given max HP and status list, for probing status damage. -/
def hpProbe (mhp : ℕ) (effects : List String) : Pokemon :=
  ⟨"probe", mhp, mhp, 0, 0, 0, 0, 0, [], [], effects, []⟩

/-- Raw input whose first four moves all lack a truthy power while the fifth
is damaging. -/
def rawP : RawPokemon :=
  ⟨"raw", ⟨none, none, none, none, none, none⟩, ["fire"],
    [⟨"m1", "fire", none, some 100, "physical"⟩,
     ⟨"m2", "fire", some 0, some 100, "physical"⟩,
     ⟨"m3", "fire", none, none, "special"⟩,
     ⟨"m4", "fire", some 0, none, "physical"⟩,
     ⟨"m5", "fire", some 90, some 100, "physical"⟩]⟩

/-- A fast combatant (speed 30). -/
def fastMon : Pokemon := ⟨"fast", 10, 10, 5, 5, 5, 5, 30, [], [], [], []⟩

/-- A slow combatant (speed 4). -/
def slowMon : Pokemon := ⟨"slow", 10, 10, 5, 5, 5, 5, 4, [], [], [], []⟩

/-- A combatant whose only move has power 0. -/
def strugglerMon : Pokemon :=
  ⟨"st", 10, 10, 5, 5, 5, 5, 5, ["water"], [⟨"splash", "water", 0, 100, "status"⟩], [], []⟩

/-- A concrete mid-round state with the struggler as first combatant. -/
def roundSt0 : RoundSt := ⟨strugglerMon, monB, 10, 1, [], rs0⟩

/-! ### Shared lemmas -/

/-- Reading a key from a dict with keys away from `k` falls through. -/
theorem dget_append_single (d : List (String × ℕ)) (k : String) (v d0 : ℕ)
    (h : ∀ kv ∈ d, kv.1 ≠ k) : dget (d ++ [(k, v)]) k d0 = v := by
  induction d with
  | nil => simp [dget]
  | cons a t ih =>
    have ha : a.1 ≠ k := h a (by simp)
    simp only [List.cons_append, dget, ha, if_false]
    exact ih fun kv hkv => h kv (by simp [hkv])

/-- Writing a key into a dict and reading it back yields the written value. -/
theorem dget_dset (d : List (String × ℕ)) (k : String) (v d0 : ℕ) :
    dget (dset d k v) k d0 = v := by
  unfold dset
  by_cases h : d.any (fun kv => kv.1 = k)
  · rw [if_pos h]
    induction d with
    | nil => simp at h
    | cons a t ih =>
      rcases eq_or_ne a.1 k with ha | ha
      · simp [dget, ha]
      · have h' : t.any (fun kv => kv.1 = k) := by
          simp only [List.any_cons, Bool.or_eq_true, decide_eq_true_eq] at h
          rcases h with h | h
          · exact absurd h ha
          · simpa using h
        simpa [dget, ha] using ih h'
  · rw [if_neg h]
    refine dget_append_single d k v d0 ?_
    intro kv hkv
    simp only [List.any_eq_true, decide_eq_true_eq, not_exists, not_and] at h
    exact h kv hkv

/-! ### Claim theorems -/

/-- Claim C2 (counterexample): a combatant whose sleep counter is exactly 2 is
blocked only on its first round; on the second round `can_move` already
returns `true` with the wake-up message, refuting the claimed
blocked-blocked-act pattern `[false, false, true]`. -/
theorem sleep_two_turns_counterexample :
    can_move_trace sleeper rs0 3 =
      [(false, "s is fast asleep!"), (true, "s woke up!"), (true, "")] ∧
    ¬((can_move_trace sleeper rs0 3).map Prod.fst = [false, false, true]) := by
  decide

/-- Claim C2 (amended): for a combatant afflicted with Sleep whose
remaining-duration counter is exactly 2, `can_move` blocks its action for 1
round and allows it to act normally starting the 2nd round, emitting the
woke-up message exactly once (on the 2nd round). -/
theorem sleep_two_turns_amended (p : Pokemon) (rs : RngState)
    (he : p.status_effects = [sleep]) (ht : dget p.status_turns sleep 0 = 2) :
    can_move_trace p rs 3 =
      [(false, p.name ++ " is fast asleep!"), (true, p.name ++ " woke up!"), (true, "")] := by
  have hsp : sleep ≠ paralysis := by decide
  have hnil : String.intercalate "; " ([] : List String) = "" := rfl
  simp [can_move_trace, can_move, can_move_go, he, hsp, ht, dget_dset, hnil,
    List.erase_cons_head]

/-- Witness for `sleep_two_turns_amended` at the concrete sleeper. -/
theorem sleep_two_turns_amended_witness :
    can_move_trace sleeper rs0 3 =
      [(false, sleeper.name ++ " is fast asleep!"),
       (true, sleeper.name ++ " woke up!"), (true, "")] :=
  sleep_two_turns_amended sleeper rs0 (by decide) (by decide)

/-- Claim C1 (counterexample): a battle between two combatants with no moves
reaches the 100-round cap with both HP still positive, yet the returned
winner is the first combatant (not `none`) and the summary reports a win,
not a draw. -/
theorem turn_cap_draw_counterexample :
    0 < (battle_loop effZero 100 0 (init_battle_state monA monB rs0)).hp1 ∧
    0 < (battle_loop effZero 100 0 (init_battle_state monA monB rs0)).hp2 ∧
    (simulate_battle effZero monA monB rs0).turns.length = 100 ∧
    (simulate_battle effZero monA monB rs0).winner = some "a" ∧
    ¬((simulate_battle effZero monA monB rs0).winner = none) ∧
    (simulate_battle effZero monA monB rs0).battle_summary = "a won in 100 turns" := by
  decide

/-- Claim C1 (amended): when the 100-round cap is reached with both
combatants still at positive HP, `simulate_battle` returns the first
combatant as winner, a summary reporting that win, and the accumulated
turn log. -/
theorem turn_cap_first_wins (eff : Eff) (p1 p2 : Pokemon) (rs : RngState)
    (h1 : 0 < (battle_loop eff 100 0 (init_battle_state p1 p2 rs)).hp1)
    (h2 : 0 < (battle_loop eff 100 0 (init_battle_state p1 p2 rs)).hp2) :
    (simulate_battle eff p1 p2 rs).winner = some p1.name ∧
    (simulate_battle eff p1 p2 rs).turns =
      (battle_loop eff 100 0 (init_battle_state p1 p2 rs)).turns ∧
    (simulate_battle eff p1 p2 rs).battle_summary =
      p1.name ++ " won in " ++
        toString (battle_loop eff 100 0 (init_battle_state p1 p2 rs)).turns.length ++
        " turns" := by
  refine ⟨?_, ?_, ?_⟩ <;> simp [simulate_battle, h1]

/-- Witness for `turn_cap_first_wins` at the concrete no-move battle. -/
theorem turn_cap_first_wins_witness :
    (simulate_battle effZero monA monB rs0).winner = some monA.name ∧
    (simulate_battle effZero monA monB rs0).turns =
      (battle_loop effZero 100 0 (init_battle_state monA monB rs0)).turns ∧
    (simulate_battle effZero monA monB rs0).battle_summary =
      monA.name ++ " won in " ++
        toString (battle_loop effZero 100 0 (init_battle_state monA monB rs0)).turns.length ++
        " turns" :=
  turn_cap_first_wins effZero monA monB rs0 (by decide) (by decide)

/-- Each executed round appends exactly one turn record, so the loop adds at
most `fuel` records. -/
theorem battle_loop_turns_le (eff : Eff) :
    ∀ (fuel k : ℕ) (st : BattleSt),
      (battle_loop eff fuel k st).turns.length ≤ st.turns.length + fuel := by
  intro fuel
  induction fuel with
  | zero => intro k st; simp [battle_loop]
  | succ n ih =>
    intro k st
    rw [battle_loop]
    split
    · refine le_trans (ih _ _) ?_
      simp
      omega
    · omega

/-- Claim C4: for valid combatants with positive HP the simulation
terminates (it is a total function of bounded fuel) and produces at most
100 turn records. -/
theorem simulate_battle_turns_le (eff : Eff) (p1 p2 : Pokemon) (rs : RngState)
    (h1 : 0 < p1.hp) (h2 : 0 < p2.hp) :
    (simulate_battle eff p1 p2 rs).turns.length ≤ 100 := by
  have h := battle_loop_turns_le eff 100 0 (init_battle_state p1 p2 rs)
  simpa [simulate_battle, init_battle_state] using h

/-- Witness for `simulate_battle_turns_le`. -/
theorem simulate_battle_turns_le_witness :
    (simulate_battle effZero monA monB rs0).turns.length ≤ 100 :=
  simulate_battle_turns_le effZero monA monB rs0 (by decide) (by decide)

/-- Claim C6: a move with positive power always resolves to damage at least
1, whatever the type-effectiveness provider (including one that always
returns 0.0) and whatever the random draws. -/
theorem calculate_damage_ge_one (eff : Eff) (attacker defender : Pokemon)
    (move : Move) (rs : RngState) (hp : 0 < move.power) :
    1 ≤ (calculate_damage eff attacker defender move rs).damage := by
  have hne : ¬(move.power = 0) := by omega
  simp only [calculate_damage, hne, if_false]
  split
  · simp
  · split
    · simp
    · simp

/-- Witness for `calculate_damage_ge_one` with the all-zero effectiveness
provider: the floor applies even when the multiplier is 0.0. -/
theorem calculate_damage_ge_one_witness :
    1 ≤ (calculate_damage effZero fighter fighter atkMove rs0).damage :=
  calculate_damage_ge_one effZero fighter fighter atkMove rs0 (by decide)

/-- The status-damage fold sums the burn and poison contributions of a
duplicate-free status list. -/
theorem status_damage_foldl (p : Pokemon) :
    ∀ (l : List String) (a : ℕ) (ms : List String), l.Nodup →
      (l.foldl (status_damage_step p) (a, ms)).1 =
        a + (if burn ∈ l then max 1 (p.max_hp / 16) else 0) +
          (if poison ∈ l then max 1 (p.max_hp / 8) else 0) := by
  intro l
  induction l with
  | nil => intro a ms _; simp
  | cons s t ih =>
    intro a ms hnd
    rcases List.nodup_cons.mp hnd with ⟨hs, hnd'⟩
    rw [List.foldl_cons]
    by_cases hb : s = burn
    · subst hb
      have e : status_damage_step p (a, ms) burn =
          (a + max 1 (p.max_hp / 16),
            ms ++ [p.name ++ " is hurt by its burn! (-" ++
              toString (max 1 (p.max_hp / 16)) ++ " HP)"]) := by
        simp [status_damage_step]
      rw [e, ih _ _ hnd']
      have hbp : ¬(poison = burn) := by decide
      by_cases hq : poison ∈ t <;> simp [hs, hq, hbp] <;> omega
    · by_cases hq : s = poison
      · subst hq
        have e : status_damage_step p (a, ms) poison =
            (a + max 1 (p.max_hp / 8),
              ms ++ [p.name ++ " is hurt by poison! (-" ++
                toString (max 1 (p.max_hp / 8)) ++ " HP)"]) := by
          simp [status_damage_step, burn, poison]
        rw [e, ih _ _ hnd']
        have hbp : ¬(burn = poison) := by decide
        by_cases hb2 : burn ∈ t <;> simp [hs, hb2, hbp] <;> omega
      · have e : status_damage_step p (a, ms) s = (a, ms) := by
          simp [status_damage_step, hb, hq]
        rw [e, ih _ _ hnd']
        have h1 : burn ∈ s :: t ↔ burn ∈ t := by
          simp only [List.mem_cons]
          exact or_iff_right fun h => hb h.symm
        have h2 : poison ∈ s :: t ↔ poison ∈ t := by
          simp only [List.mem_cons]
          exact or_iff_right fun h => hq h.symm
        rw [if_congr h1 rfl rfl, if_congr h2 rfl rfl]

/-- Claim C7: end-of-round status damage is `max 1 (maxHP / 16)` for burn
plus `max 1 (maxHP / 8)` for poison, summing whichever apply, including the
exact values at maxHP 1, 15, 16, 17, 200. -/
theorem status_damage_formula (p : Pokemon) (hnd : p.status_effects.Nodup) :
    (process_status_damage p).1 =
      (if burn ∈ p.status_effects then max 1 (p.max_hp / 16) else 0) +
        (if poison ∈ p.status_effects then max 1 (p.max_hp / 8) else 0) ∧
    (process_status_damage (hpProbe 1 [burn])).1 = 1 ∧
    (process_status_damage (hpProbe 15 [burn])).1 = 1 ∧
    (process_status_damage (hpProbe 16 [burn])).1 = 1 ∧
    (process_status_damage (hpProbe 17 [burn])).1 = 1 ∧
    (process_status_damage (hpProbe 200 [burn])).1 = 12 ∧
    (process_status_damage (hpProbe 1 [poison])).1 = 1 ∧
    (process_status_damage (hpProbe 15 [poison])).1 = 1 ∧
    (process_status_damage (hpProbe 16 [poison])).1 = 2 ∧
    (process_status_damage (hpProbe 17 [poison])).1 = 2 ∧
    (process_status_damage (hpProbe 200 [poison])).1 = 25 ∧
    (process_status_damage (hpProbe 200 [burn, poison])).1 = 37 := by
  refine ⟨?_, by decide, by decide, by decide, by decide, by decide, by decide,
    by decide, by decide, by decide, by decide, by decide⟩
  have h := status_damage_foldl p p.status_effects 0 [] hnd
  simpa [process_status_damage] using h

/-- Witness for `status_damage_formula` at a burned 200-HP combatant. -/
theorem status_damage_formula_witness :
    (process_status_damage (hpProbe 200 [burn])).1 =
      (if burn ∈ (hpProbe 200 [burn]).status_effects
        then max 1 ((hpProbe 200 [burn]).max_hp / 16) else 0) +
      (if poison ∈ (hpProbe 200 [burn]).status_effects
        then max 1 ((hpProbe 200 [burn]).max_hp / 8) else 0) :=
  (status_damage_formula (hpProbe 200 [burn]) (by decide)).1

/-- Claim C8: each round the combatant with the higher effective speed
(halved under paralysis) acts first, and the first-listed combatant acts
first on a tie. -/
theorem turn_order_speed (p1 p2 : Pokemon) :
    ((if paralysis ∈ p2.status_effects then p2.speed / 2 else p2.speed) <
        (if paralysis ∈ p1.status_effects then p1.speed / 2 else p1.speed) →
      turn_order p1 p2 = true) ∧
    ((if paralysis ∈ p1.status_effects then p1.speed / 2 else p1.speed) <
        (if paralysis ∈ p2.status_effects then p2.speed / 2 else p2.speed) →
      turn_order p1 p2 = false) ∧
    ((if paralysis ∈ p1.status_effects then p1.speed / 2 else p1.speed) =
        (if paralysis ∈ p2.status_effects then p2.speed / 2 else p2.speed) →
      turn_order p1 p2 = true) := by
  unfold turn_order
  refine ⟨fun h => ?_, fun h => ?_, fun h => ?_⟩ <;>
    simp only [decide_eq_true_eq, decide_eq_false_iff_not, not_le] <;> omega

/-- Witness for `turn_order_speed`: a strictly faster first combatant acts
first. -/
theorem turn_order_speed_witness : turn_order fastMon slowMon = true :=
  (turn_order_speed fastMon slowMon).1 (by decide)

/-- Claim C10: the prepared move list is the first four supplied moves
filtered to those with truthy power, so it has length at most 4, every
retained move has nonzero power, and four powerless leading moves give an
empty battle move list no matter what follows. -/
theorem prepare_moves_truncate (data : RawPokemon) :
    (prepare_pokemon_for_battle data).moves.length ≤ 4 ∧
    (∀ m ∈ (prepare_pokemon_for_battle data).moves, m.power ≠ 0) ∧
    ((∀ m ∈ data.moves.take 4, truthy m.power = false) →
      (prepare_pokemon_for_battle data).moves = []) := by
  refine ⟨?_, ?_, ?_⟩
  · simp only [prepare_pokemon_for_battle, List.length_map]
    refine le_trans (List.length_filter_le _ _) ?_
    simpa using List.length_take_le 4 data.moves
  · intro m hm
    simp only [prepare_pokemon_for_battle, List.mem_map] at hm
    obtain ⟨m', hm', rfl⟩ := hm
    have ht := List.of_mem_filter hm'
    cases hp : m'.power with
    | none => rw [hp] at ht; simp [truthy] at ht
    | some n =>
      rw [hp] at ht
      simp only [truthy, decide_eq_true_eq] at ht
      simp [orDefault, hp, ht]
  · intro h
    simp only [prepare_pokemon_for_battle]
    have hf : (data.moves.take 4).filter (fun m => truthy m.power) = [] := by
      refine List.filter_eq_nil.mpr ?_
      intro a ha
      simp [h a ha]
    simp [hf]

/-- Witness for `prepare_moves_truncate`: the concrete raw input whose first
four moves are powerless but whose fifth is damaging gets an empty list. -/
theorem prepare_moves_truncate_witness :
    (∀ m ∈ rawP.moves.take 4, truthy m.power = false) ∧
    truthy ((rawP.moves.getD 4 ⟨"", "", none, none, ""⟩).power) = true ∧
    (prepare_pokemon_for_battle rawP).moves = [] :=
  ⟨by decide, by decide, (prepare_moves_truncate rawP).2.2 (by decide)⟩

/-- Attack damage is applied with a clamp at 0, so the attack block keeps
both HP values non-negative. -/
theorem attack_action_hp (eff : Eff) (b ep : Bool) (a : Pokemon) (st : RoundSt)
    (h1 : 0 ≤ st.hp1) (h2 : 0 ≤ st.hp2) :
    0 ≤ (attack_action eff b ep a st).hp1 ∧ 0 ≤ (attack_action eff b ep a st).hp2 := by
  cases b <;> simp only [attack_action, setDefender] <;> repeat' split <;>
    first
      | exact ⟨h1, h2⟩
      | exact ⟨h1, le_max_left 0 _⟩
      | exact ⟨le_max_left 0 _, h2⟩
      | simp_all

/-- The first actor block keeps both HP values non-negative. -/
theorem first_turn_hp (eff : Eff) (b : Bool) (st : RoundSt)
    (h1 : 0 ≤ st.hp1) (h2 : 0 ≤ st.hp2) :
    0 ≤ (first_turn eff b st).hp1 ∧ 0 ≤ (first_turn eff b st).hp2 := by
  cases b <;> simp only [first_turn, setActor] <;> repeat' split <;>
    first
      | exact ⟨h1, h2⟩
      | exact attack_action_hp _ _ _ _ _ h1 h2
      | simp_all

/-- The second actor block keeps both HP values non-negative. -/
theorem second_turn_hp (eff : Eff) (b : Bool) (st : RoundSt)
    (h1 : 0 ≤ st.hp1) (h2 : 0 ≤ st.hp2) :
    0 ≤ (second_turn eff b st).hp1 ∧ 0 ≤ (second_turn eff b st).hp2 := by
  cases b <;> simp only [second_turn, setActor, Bool.not_true, Bool.not_false] <;>
    repeat' split <;>
    first
      | exact ⟨h1, h2⟩
      | exact attack_action_hp _ _ _ _ _ h1 h2
      | simp_all

/-- End-of-round status damage is applied with a clamp at 0, so the status
phase keeps both HP values non-negative. -/
theorem status_phase_hp (st : RoundSt) (h1 : 0 ≤ st.hp1) (h2 : 0 ≤ st.hp2) :
    0 ≤ (status_phase st).hp1 ∧ 0 ≤ (status_phase st).hp2 := by
  simp only [status_phase]
  repeat' split
  all_goals
    first
      | exact ⟨h1, h2⟩
      | exact ⟨h1, le_max_left 0 _⟩
      | exact ⟨le_max_left 0 _, h2⟩
      | exact ⟨le_max_left 0 _, le_max_left 0 _⟩

/-- A whole round keeps both HP values non-negative. -/
theorem battle_round_hp (eff : Eff) (st : RoundSt)
    (h1 : 0 ≤ st.hp1) (h2 : 0 ≤ st.hp2) :
    0 ≤ (battle_round eff st).hp1 ∧ 0 ≤ (battle_round eff st).hp2 := by
  have hf := first_turn_hp eff (turn_order st.p1 st.p2) st h1 h2
  have hs := second_turn_hp eff (turn_order st.p1 st.p2) _ hf.1 hf.2
  have hq := status_phase_hp
    (second_turn eff (turn_order st.p1 st.p2) (first_turn eff (turn_order st.p1 st.p2) st))
    hs.1 hs.2
  simp only [battle_round]
  split
  · exact hf
  · exact hq

/-- The battle loop keeps both HP values non-negative. -/
theorem battle_loop_hp (eff : Eff) :
    ∀ (fuel k : ℕ) (bst : BattleSt), 0 ≤ bst.hp1 → 0 ≤ bst.hp2 →
      0 ≤ (battle_loop eff fuel k bst).hp1 ∧ 0 ≤ (battle_loop eff fuel k bst).hp2 := by
  intro fuel
  induction fuel with
  | zero => intro k bst h1 h2; exact ⟨h1, h2⟩
  | succ n ih =>
    intro k bst h1 h2
    rw [battle_loop]
    split
    · have hr := battle_round_hp eff ⟨bst.p1, bst.p2, bst.hp1, bst.hp2, [], bst.rs⟩ h1 h2
      exact ih _ _ hr.1 hr.2
    · exact ⟨h1, h2⟩

/-- Claim C5: throughout a simulated battle the tracked HP values are never
negative — each attack-damage application, each phase, each round, and the
whole loop clamp HP at a minimum of 0. -/
theorem hp_never_negative (eff : Eff) :
    (∀ (b ep : Bool) (a : Pokemon) (st : RoundSt), 0 ≤ st.hp1 → 0 ≤ st.hp2 →
      0 ≤ (attack_action eff b ep a st).hp1 ∧ 0 ≤ (attack_action eff b ep a st).hp2) ∧
    (∀ (b : Bool) (st : RoundSt), 0 ≤ st.hp1 → 0 ≤ st.hp2 →
      0 ≤ (first_turn eff b st).hp1 ∧ 0 ≤ (first_turn eff b st).hp2) ∧
    (∀ (b : Bool) (st : RoundSt), 0 ≤ st.hp1 → 0 ≤ st.hp2 →
      0 ≤ (second_turn eff b st).hp1 ∧ 0 ≤ (second_turn eff b st).hp2) ∧
    (∀ st : RoundSt, 0 ≤ st.hp1 → 0 ≤ st.hp2 →
      0 ≤ (status_phase st).hp1 ∧ 0 ≤ (status_phase st).hp2) ∧
    (∀ st : RoundSt, 0 ≤ st.hp1 → 0 ≤ st.hp2 →
      0 ≤ (battle_round eff st).hp1 ∧ 0 ≤ (battle_round eff st).hp2) ∧
    (∀ (fuel k : ℕ) (bst : BattleSt), 0 ≤ bst.hp1 → 0 ≤ bst.hp2 →
      0 ≤ (battle_loop eff fuel k bst).hp1 ∧ 0 ≤ (battle_loop eff fuel k bst).hp2) :=
  ⟨fun b ep a st => attack_action_hp eff b ep a st,
   fun b st => first_turn_hp eff b st,
   fun b st => second_turn_hp eff b st,
   fun st => status_phase_hp st,
   fun st => battle_round_hp eff st,
   fun fuel k bst => battle_loop_hp eff fuel k bst⟩

/-- Witness for `hp_never_negative` over a full concrete 100-round battle. -/
theorem hp_never_negative_witness :
    0 ≤ (battle_loop effZero 100 0 (init_battle_state monA monB rs0)).hp1 ∧
    0 ≤ (battle_loop effZero 100 0 (init_battle_state monA monB rs0)).hp2 :=
  (hp_never_negative effZero).2.2.2.2.2 100 0 (init_battle_state monA monB rs0)
    (by decide) (by decide)

/-- `can_move` never changes the name or the move list of a combatant. -/
theorem can_move_go_name_moves :
    ∀ (l msgs : List String) (p : Pokemon) (rs : RngState),
      (can_move_go l msgs p rs).pokemon.name = p.name ∧
      (can_move_go l msgs p rs).pokemon.moves = p.moves := by
  intro l
  induction l with
  | nil => intro msgs p rs; exact ⟨rfl, rfl⟩
  | cons s t ih =>
    intro msgs p rs
    simp only [can_move_go]
    repeat' split
    all_goals first | exact ⟨rfl, rfl⟩ | exact ih _ _ _

/-- `can_move` wrapper form of `can_move_go_name_moves`. -/
theorem can_move_name_moves (p : Pokemon) (rs : RngState) :
    (can_move p rs).pokemon.name = p.name ∧
    (can_move p rs).pokemon.moves = p.moves :=
  can_move_go_name_moves p.status_effects [] p rs

/-- An actor whose moves all have power 0 forfeits its attack: the HP values
are untouched and the corresponding helpless message is appended. -/
theorem attack_action_no_moves (eff : Eff) (b ep : Bool) (a : Pokemon)
    (st : RoundSt) (h : ∀ m ∈ a.moves, m.power = 0) :
    attack_action eff b ep a st =
      { st with actions := st.actions ++
          [a.name ++ (if a.moves = [] then " has no moves and cannot attack!"
            else " has no attacking moves and struggles helplessly!")] } := by
  by_cases hm : a.moves = []
  · simp [attack_action, hm]
  · have hf : a.moves.filter (fun m => 0 < m.power) = [] := by
      refine List.filter_eq_nil_iff.mpr ?_
      intro m hmem
      simp [h m hmem]
    simp [attack_action, hm, hf]

/-- Claim C9: a combatant that is allowed to act but has no positive-power
move records the corresponding cannot-attack / struggles-helplessly
message, deals no damage (both HP values unchanged), and the round block
returns normally.  Stated for both actor blocks of the round loop. -/
theorem no_usable_move_forfeits (eff : Eff) (b : Bool) (st : RoundSt) :
    ((∀ m ∈ (if b then st.p1 else st.p2).moves, m.power = 0) →
      (can_move (if b then st.p1 else st.p2) st.rs).can = true →
      (first_turn eff b st).hp1 = st.hp1 ∧
      (first_turn eff b st).hp2 = st.hp2 ∧
      (first_turn eff b st).actions =
        st.actions ++
          (if (can_move (if b then st.p1 else st.p2) st.rs).msg = "" then []
            else [(can_move (if b then st.p1 else st.p2) st.rs).msg]) ++
          [(if b then st.p1 else st.p2).name ++
            (if (if b then st.p1 else st.p2).moves = []
              then " has no moves and cannot attack!"
              else " has no attacking moves and struggles helplessly!")]) ∧
    ((∀ m ∈ (if b then st.p2 else st.p1).moves, m.power = 0) →
      (can_move (if b then st.p2 else st.p1) st.rs).can = true →
      0 < st.hp1 → 0 < st.hp2 →
      (second_turn eff b st).hp1 = st.hp1 ∧
      (second_turn eff b st).hp2 = st.hp2 ∧
      (second_turn eff b st).actions =
        st.actions ++
          (if (can_move (if b then st.p2 else st.p1) st.rs).msg = "" then []
            else [(can_move (if b then st.p2 else st.p1) st.rs).msg]) ++
          [(if b then st.p2 else st.p1).name ++
            (if (if b then st.p2 else st.p1).moves = []
              then " has no moves and cannot attack!"
              else " has no attacking moves and struggles helplessly!")]) := by
  constructor
  · intro hmv hcan
    cases b
    · have hnm := can_move_name_moves st.p2 st.rs
      simp only [Bool.false_eq_true, if_false] at hmv hcan ⊢
      simp only [first_turn, setActor, Bool.false_eq_true, if_false, hcan, if_true]
      rw [attack_action_no_moves eff false true _ _ (fun m hm => hmv m (hnm.2 ▸ hm))]
      refine ⟨rfl, rfl, ?_⟩
      simp [hnm.1, hnm.2, List.append_assoc]
    · have hnm := can_move_name_moves st.p1 st.rs
      simp only [if_true] at hmv hcan ⊢
      simp only [first_turn, setActor, hcan, if_true]
      rw [attack_action_no_moves eff true true _ _ (fun m hm => hmv m (hnm.2 ▸ hm))]
      refine ⟨rfl, rfl, ?_⟩
      simp [hnm.1, hnm.2, List.append_assoc]
  · intro hmv hcan h3 h4
    cases b
    · have hnm := can_move_name_moves st.p1 st.rs
      simp only [Bool.false_eq_true, if_false] at hmv hcan ⊢
      simp only [second_turn, setActor, Bool.not_false, if_true, hcan, h3, h4,
        and_self, true_and]
      rw [attack_action_no_moves eff true false _ _ (fun m hm => hmv m (hnm.2 ▸ hm))]
      refine ⟨rfl, rfl, ?_⟩
      simp [hnm.1, hnm.2, List.append_assoc]
    · have hnm := can_move_name_moves st.p2 st.rs
      simp only [if_true] at hmv hcan ⊢
      simp only [second_turn, setActor, Bool.not_true, Bool.false_eq_true, if_false,
        hcan, h3, h4, and_self, true_and]
      rw [attack_action_no_moves eff false false _ _ (fun m hm => hmv m (hnm.2 ▸ hm))]
      refine ⟨rfl, rfl, ?_⟩
      simp [hnm.1, hnm.2, List.append_assoc]

/-- Witness for `no_usable_move_forfeits`: the struggler with its single
powerless move forfeits its action in a concrete round state. -/
theorem no_usable_move_forfeits_witness :
    (first_turn effZero true roundSt0).hp1 = roundSt0.hp1 ∧
    (first_turn effZero true roundSt0).hp2 = roundSt0.hp2 ∧
    (first_turn effZero true roundSt0).actions =
      roundSt0.actions ++
        (if (can_move (if true then roundSt0.p1 else roundSt0.p2) roundSt0.rs).msg = ""
          then []
          else [(can_move (if true then roundSt0.p1 else roundSt0.p2) roundSt0.rs).msg]) ++
        [(if true then roundSt0.p1 else roundSt0.p2).name ++
          (if (if true then roundSt0.p1 else roundSt0.p2).moves = []
            then " has no moves and cannot attack!"
            else " has no attacking moves and struggles helplessly!")] :=
  (no_usable_move_forfeits effZero true roundSt0).1 (by decide) (by decide)

/-- Unfolding the major-removal loop one status at a time. -/
theorem removeMajorsAux_cons (m : String) (r e : List String) (t : List (String × ℕ)) :
    removeMajorsAux (m :: r) e t =
      if m ∈ e then removeMajorsAux r (e.erase m) (dpop t m)
      else removeMajorsAux r e t := by
  simp only [removeMajorsAux, List.foldl_cons]
  split <;> rfl

/-- The major-removal loop only erases statuses. -/
theorem removeMajorsAux_sublist :
    ∀ (ms e : List String) (t : List (String × ℕ)),
      List.Sublist (removeMajorsAux ms e t).1 e := by
  intro ms
  induction ms with
  | nil => intro e t; exact List.Sublist.refl _
  | cons m r ih =>
    intro e t
    rw [removeMajorsAux_cons]
    by_cases hm : m ∈ e
    · rw [if_pos hm]
      exact (ih _ _).trans (List.erase_sublist _ _)
    · rw [if_neg hm]
      exact ih _ _

/-- After the major-removal loop, none of the processed statuses remain
(given a duplicate-free status list). -/
theorem removeMajorsAux_not_mem :
    ∀ (ms e : List String) (t : List (String × ℕ)), e.Nodup →
      ∀ m ∈ ms, m ∉ (removeMajorsAux ms e t).1 := by
  intro ms
  induction ms with
  | nil => intro e t _ m hm; exact absurd hm (List.not_mem_nil m)
  | cons m0 r ih =>
    intro e t hnd m hm
    rw [removeMajorsAux_cons]
    rcases List.mem_cons.mp hm with rfl | hm'
    · by_cases he : m ∈ e
      · rw [if_pos he]
        intro hmem
        exact hnd.not_mem_erase ((removeMajorsAux_sublist r _ _).subset hmem)
      · rw [if_neg he]
        intro hmem
        exact he ((removeMajorsAux_sublist r e t).subset hmem)
    · by_cases he : m0 ∈ e
      · rw [if_pos he]
        exact ih _ _ (hnd.erase m0) m hm'
      · rw [if_neg he]
        exact ih _ _ hnd m hm'

/-- Statuses outside the processed list survive the major-removal loop. -/
theorem removeMajorsAux_mem :
    ∀ (ms e : List String) (t : List (String × ℕ)) (x : String), x ∉ ms → x ∈ e →
      x ∈ (removeMajorsAux ms e t).1 := by
  intro ms
  induction ms with
  | nil => intro e t x _ hx; exact hx
  | cons m r ih =>
    intro e t x hnx hx
    have hxm : x ≠ m := fun h => hnx (h ▸ List.mem_cons_self m r)
    have hnx' : x ∉ r := fun h => hnx (List.mem_cons_of_mem _ h)
    rw [removeMajorsAux_cons]
    by_cases he : m ∈ e
    · rw [if_pos he]
      exact ih _ _ x hnx' ((List.mem_erase_of_ne hxm).mpr hx)
    · rw [if_neg he]
      exact ih _ _ x hnx' hx

/-- The status invariant restricts along sublists. -/
theorem listInv_sublist {lo l : List String} (hs : List.Sublist lo l) (h : listInv l) :
    listInv lo :=
  ⟨h.1.sublist hs, fun x hx y hy hxm hym => h.2 x (hs.subset hx) y (hs.subset hy) hxm hym⟩

/-- Appending a fresh status keeps the invariant, provided a major appendee
displaced every major already present. -/
theorem listInv_append_status {e0 : List String} (s : String) (h : listInv e0)
    (hs : s ∉ e0) (hmaj : s ∈ major_statuses → ∀ m ∈ major_statuses, m ∉ e0) :
    listInv (e0 ++ [s]) := by
  constructor
  · rw [List.nodup_append]
    exact ⟨h.1, List.nodup_singleton s, by simpa [List.disjoint_singleton] using hs⟩
  · intro x hx y hy hxm hym
    rcases List.mem_append.mp hx with hx' | hx'
    · rcases List.mem_append.mp hy with hy' | hy'
      · exact h.2 x hx' y hy' hxm hym
      · have hy2 : y = s := List.mem_singleton.mp hy'
        subst hy2
        exact absurd hx' (hmaj hym x hxm)
    · have hx2 : x = s := List.mem_singleton.mp hx'
      rcases List.mem_append.mp hy with hy' | hy'
      · subst hx2
        exact absurd hy' (hmaj hxm y hym)
      · rw [hx2, List.mem_singleton.mp hy']

/-- Applying an already-present status is a no-op on the combatant. -/
theorem apply_status_effect_noop (p : Pokemon) (s : String) (rs : RngState)
    (hin : s ∈ p.status_effects) : (apply_status_effect p s rs).pokemon = p := by
  unfold apply_status_effect
  rw [if_pos hin]

/-- The status list after applying a fresh status: majors are first swept
when the new status is major, then the new status is appended. -/
theorem apply_status_effect_effects (p : Pokemon) (s : String) (rs : RngState)
    (hns : s ∉ p.status_effects) :
    (apply_status_effect p s rs).pokemon.status_effects =
      (if s ∈ major_statuses then
        (removeMajorsAux major_statuses p.status_effects p.status_turns).1
      else p.status_effects) ++ [s] := by
  simp only [apply_status_effect, hns, if_false]
  by_cases hmaj : s ∈ major_statuses
  · simp only [if_pos hmaj]
    repeat' split
    all_goals rfl
  · simp only [if_neg hmaj]
    repeat' split
    all_goals rfl

/-- `apply_status_effect` preserves the status invariant. -/
theorem statusInv_apply (p : Pokemon) (s : String) (rs : RngState)
    (h : statusInv p) : statusInv (apply_status_effect p s rs).pokemon := by
  by_cases hin : s ∈ p.status_effects
  · rw [apply_status_effect_noop p s rs hin]
    exact h
  · have he := apply_status_effect_effects p s rs hin
    unfold statusInv
    rw [he]
    by_cases hmaj : s ∈ major_statuses
    · rw [if_pos hmaj]
      exact listInv_append_status s
        (listInv_sublist (removeMajorsAux_sublist _ _ _) h)
        (fun hmem => hin ((removeMajorsAux_sublist _ _ _).subset hmem))
        (fun _ m hm => removeMajorsAux_not_mem _ _ _ h.1 m hm)
    · rw [if_neg hmaj]
      exact listInv_append_status s h hin fun hs' => absurd hs' hmaj

/-- Applying a major status leaves no other major status behind. -/
theorem apply_major_exclusive (p : Pokemon) (s : String) (rs : RngState)
    (h : statusInv p) (hs : s ∈ major_statuses) :
    ∀ m ∈ major_statuses, m ≠ s →
      m ∉ (apply_status_effect p s rs).pokemon.status_effects := by
  intro m hm hne
  by_cases hin : s ∈ p.status_effects
  · rw [apply_status_effect_noop p s rs hin]
    intro hmem
    exact hne (h.2 m hmem s hin hm hs)
  · rw [apply_status_effect_effects p s rs hin, if_pos hs]
    intro hmem
    rcases List.mem_append.mp hmem with h1 | h1
    · exact removeMajorsAux_not_mem _ _ _ h.1 m hm h1
    · exact hne (List.mem_singleton.mp h1)

/-- Confusion survives any status application. -/
theorem apply_keeps_confusion (p : Pokemon) (s : String) (rs : RngState)
    (hc : confusion ∈ p.status_effects) :
    confusion ∈ (apply_status_effect p s rs).pokemon.status_effects := by
  by_cases hin : s ∈ p.status_effects
  · rw [apply_status_effect_noop p s rs hin]
    exact hc
  · rw [apply_status_effect_effects p s rs hin]
    by_cases hmaj : s ∈ major_statuses
    · rw [if_pos hmaj]
      exact List.mem_append.mpr (Or.inl (removeMajorsAux_mem _ _ _ _ (by decide) hc))
    · rw [if_neg hmaj]
      exact List.mem_append.mpr (Or.inl hc)

/-- Applying confusion displaces no status at all. -/
theorem apply_confusion_keeps_all (p : Pokemon) (rs : RngState) (m : String)
    (hm : m ∈ p.status_effects) :
    m ∈ (apply_status_effect p confusion rs).pokemon.status_effects := by
  by_cases hin : confusion ∈ p.status_effects
  · rw [apply_status_effect_noop p confusion rs hin]
    exact hm
  · rw [apply_status_effect_effects p confusion rs hin, if_neg (by decide)]
    exact List.mem_append.mpr (Or.inl hm)

/-- The `can_move` loop only erases statuses. -/
theorem can_move_go_effects :
    ∀ (l msgs : List String) (p : Pokemon) (rs : RngState),
      List.Sublist (can_move_go l msgs p rs).pokemon.status_effects p.status_effects := by
  intro l
  induction l with
  | nil => intro msgs p rs; exact List.Sublist.refl _
  | cons s t ih =>
    intro msgs p rs
    simp only [can_move_go]
    repeat' split
    all_goals
      first
        | exact List.Sublist.refl _
        | exact List.erase_sublist _ _
        | exact ih _ _ _
        | exact (ih _ _ _).trans (List.erase_sublist _ _)

/-- `can_move` preserves the status invariant. -/
theorem statusInv_can_move (p : Pokemon) (rs : RngState) (h : statusInv p) :
    statusInv (can_move p rs).pokemon :=
  listInv_sublist (can_move_go_effects p.status_effects [] p rs) h

/-- `_calculate_damage` preserves the defender's status invariant. -/
theorem statusInv_calculate_damage (eff : Eff) (a d : Pokemon) (mv : Move)
    (rs : RngState) (h : statusInv d) :
    statusInv (calculate_damage eff a d mv rs).defender := by
  simp only [calculate_damage]
  repeat' split
  all_goals first | exact h | exact statusInv_apply _ _ _ h

/-- The attack block preserves both combatants' status invariants. -/
theorem statusInv_attack_action (eff : Eff) (b ep : Bool) (a : Pokemon)
    (st : RoundSt) (h1 : statusInv st.p1) (h2 : statusInv st.p2) :
    statusInv (attack_action eff b ep a st).p1 ∧
    statusInv (attack_action eff b ep a st).p2 := by
  cases b <;> simp only [attack_action, setDefender] <;> repeat' split <;>
    first
      | exact ⟨h1, h2⟩
      | exact ⟨statusInv_calculate_damage _ _ _ _ _ h1, h2⟩
      | exact ⟨h1, statusInv_calculate_damage _ _ _ _ _ h2⟩
      | simp_all

/-- The first actor block preserves both status invariants. -/
theorem statusInv_first_turn (eff : Eff) (b : Bool) (st : RoundSt)
    (h1 : statusInv st.p1) (h2 : statusInv st.p2) :
    statusInv (first_turn eff b st).p1 ∧ statusInv (first_turn eff b st).p2 := by
  cases b <;> simp only [first_turn, setActor] <;> repeat' split <;>
    first
      | exact ⟨h1, statusInv_can_move _ _ h2⟩
      | exact ⟨statusInv_can_move _ _ h1, h2⟩
      | exact statusInv_attack_action _ _ _ _ _ h1 (statusInv_can_move _ _ h2)
      | exact statusInv_attack_action _ _ _ _ _ (statusInv_can_move _ _ h1) h2
      | simp_all

/-- The second actor block preserves both status invariants. -/
theorem statusInv_second_turn (eff : Eff) (b : Bool) (st : RoundSt)
    (h1 : statusInv st.p1) (h2 : statusInv st.p2) :
    statusInv (second_turn eff b st).p1 ∧ statusInv (second_turn eff b st).p2 := by
  cases b <;> simp only [second_turn, setActor, Bool.not_true, Bool.not_false] <;>
    repeat' split <;>
    first
      | exact ⟨h1, statusInv_can_move _ _ h2⟩
      | exact ⟨statusInv_can_move _ _ h1, h2⟩
      | exact statusInv_attack_action _ _ _ _ _ h1 (statusInv_can_move _ _ h2)
      | exact statusInv_attack_action _ _ _ _ _ (statusInv_can_move _ _ h1) h2
      | simp_all

/-- The status-damage phase never mutates the combatants. -/
theorem statusInv_status_phase (st : RoundSt)
    (h1 : statusInv st.p1) (h2 : statusInv st.p2) :
    statusInv (status_phase st).p1 ∧ statusInv (status_phase st).p2 := by
  simp only [status_phase]
  repeat' split
  all_goals exact ⟨h1, h2⟩

/-- A whole round preserves both status invariants. -/
theorem statusInv_battle_round (eff : Eff) (st : RoundSt)
    (h1 : statusInv st.p1) (h2 : statusInv st.p2) :
    statusInv (battle_round eff st).p1 ∧ statusInv (battle_round eff st).p2 := by
  have hf := statusInv_first_turn eff (turn_order st.p1 st.p2) st h1 h2
  have hs := statusInv_second_turn eff (turn_order st.p1 st.p2) _ hf.1 hf.2
  have hq := statusInv_status_phase
    (second_turn eff (turn_order st.p1 st.p2) (first_turn eff (turn_order st.p1 st.p2) st))
    hs.1 hs.2
  simp only [battle_round]
  split
  · exact hf
  · exact hq

/-- The battle loop preserves both status invariants. -/
theorem statusInv_battle_loop (eff : Eff) :
    ∀ (fuel k : ℕ) (bst : BattleSt), statusInv bst.p1 → statusInv bst.p2 →
      statusInv (battle_loop eff fuel k bst).p1 ∧
      statusInv (battle_loop eff fuel k bst).p2 := by
  intro fuel
  induction fuel with
  | zero => intro k bst h1 h2; exact ⟨h1, h2⟩
  | succ n ih =>
    intro k bst h1 h2
    rw [battle_loop]
    split
    · have hr := statusInv_battle_round eff ⟨bst.p1, bst.p2, bst.hp1, bst.hp2, [], bst.rs⟩ h1 h2
      exact ih _ _ hr.1 hr.2
    · exact ⟨h1, h2⟩

/-- Claim C3: applying a status preserves the at-most-one-major invariant, a
new major displaces every other major, confusion coexists with majors and
is never displaced by one, and the invariant is maintained by every round
of the battle loop. -/
theorem status_exclusivity (p : Pokemon) (s : String) (rs : RngState)
    (h : statusInv p) :
    statusInv (apply_status_effect p s rs).pokemon ∧
    (s ∈ major_statuses → ∀ m ∈ major_statuses, m ≠ s →
      m ∉ (apply_status_effect p s rs).pokemon.status_effects) ∧
    (confusion ∈ p.status_effects →
      confusion ∈ (apply_status_effect p s rs).pokemon.status_effects) ∧
    (s = confusion → ∀ m ∈ p.status_effects,
      m ∈ (apply_status_effect p s rs).pokemon.status_effects) ∧
    (∀ (eff : Eff) (fuel k : ℕ) (bst : BattleSt),
      statusInv bst.p1 → statusInv bst.p2 →
      statusInv (battle_loop eff fuel k bst).p1 ∧
      statusInv (battle_loop eff fuel k bst).p2) := by
  refine ⟨statusInv_apply p s rs h, apply_major_exclusive p s rs h,
    apply_keeps_confusion p s rs, ?_, fun eff => statusInv_battle_loop eff⟩
  intro hcs m hm
  subst hcs
  exact apply_confusion_keeps_all p rs m hm

/-- Witness for `status_exclusivity`: paralysis applied to a burned
combatant sweeps the burn away. -/
theorem status_exclusivity_witness :
    statusInv (apply_status_effect (hpProbe 10 [burn]) paralysis rs0).pokemon ∧
    burn ∉ (apply_status_effect (hpProbe 10 [burn]) paralysis rs0).pokemon.status_effects :=
  ⟨(status_exclusivity (hpProbe 10 [burn]) paralysis rs0 (by decide)).1,
   (status_exclusivity (hpProbe 10 [burn]) paralysis rs0 (by decide)).2.1
     (by decide) burn (by decide) (by decide)⟩

end PokemonMCP
